import Mathlib

/-!
Verification of the `fastapi-crudrouter` repository's natural-language
specification against a shallow embedding of its code.

The embedding covers:
* the in-memory backend (`fastapi_crudrouter/core/mem.py`,
  class `MemoryCRUDRouter`): its store (`self.models : List[SCHEMA]`,
  `self._id : int`) and the route closures produced by `_get_all`,
  `_get_one`, `_create`, `_update`, `_delete_one`, `_delete_all`,
  together with `_get_next_id`;
* the route-registration logic of `CRUDGenerator.__init__`
  (`fastapi_crudrouter/core/_base.py`): which routes are added for which
  flags, with which path, HTTP method and status code;
* the exception-to-HTTP translation performed by the create/update route
  closures of each backend adapter (`sqlalchemy.py`, `gino_starlette.py`,
  `databases.py`, `tortoise.py`, `mem.py`).

A pydantic record is modelled as an identifier together with the rest of
its fields; the rest of the fields are abstracted to a type parameter
`α`, since the routers are generic in the user's schema.
-/

set_option autoImplicit false

universe u

/-- A stored record: the `id` primary-key field plus the remaining
schema fields, abstracted as `data : α`. -/
structure Model (α : Type u) where
  id : Nat
  data : α
  deriving Repr, DecidableEq

/-- The mutable state of a `MemoryCRUDRouter`: `self.models` (the ordered
list of records) and `self._id` (the next-identifier counter, initially 1). -/
structure MemStore (α : Type u) where
  models : List (Model α)
  _id : Nat
  deriving Repr, DecidableEq

namespace MemoryCRUDRouter

variable {α : Type u}

/-- `self.models = []; self._id = 1` from `MemoryCRUDRouter.__init__`. -/
def memInit : MemStore α := ⟨[], 1⟩

/-- `_get_next_id`: returns the current counter and the state with the
counter incremented (`id_ = self._id; self._id += 1; return id_`). -/
def _get_next_id (s : MemStore α) : Nat × MemStore α :=
  (s._id, { s with _id := s._id + 1 })

/-- The route closure of `_create`: the payload's fields are copied,
its `id` entry is overwritten with the next identifier
(`model_dict["id"] = self._get_next_id()`), the resulting record is
appended to `self.models` and returned.  The payload is a full `Model`
(it may carry an `id` of its own, which is ignored). -/
def _create (s : MemStore α) (payload : Model α) : Model α × MemStore α :=
  let (newId, s1) := _get_next_id s
  let ready : Model α := ⟨newId, payload.data⟩
  (ready, { s1 with models := s1.models ++ [ready] })

/-- The route closure of `_get_one`: linear scan for the first record
whose `id` equals `item_id`; `raise NOT_FOUND` (modelled as `none`) when
no record matches.  The route does not assign to the store, so the state
component of the result is the input state. -/
def _get_one (s : MemStore α) (item_id : Nat) : Option (Model α) × MemStore α :=
  (s.models.find? (fun m => m.id == item_id), s)

/-- Recursion underlying `_update`: walk `self.models` in order; at the
first record whose `id` equals `item_id`, replace it in place by
`self.schema(**model.dict(), id=model_.id)` and return the new entry. -/
def updateGo (item_id : Nat) (payload : α) : List (Model α) → Option (Model α) × List (Model α)
  | [] => (none, [])
  | m :: rest =>
    if m.id = item_id then
      (some ⟨m.id, payload⟩, ⟨m.id, payload⟩ :: rest)
    else
      ((updateGo item_id payload rest).1, m :: (updateGo item_id payload rest).2)

/-- The route closure of `_update`: first-match in-place replacement,
`NOT_FOUND` (`none`) when no record matches; `self._id` untouched. -/
def _update (s : MemStore α) (item_id : Nat) (payload : α) : Option (Model α) × MemStore α :=
  ((updateGo item_id payload s.models).1,
   { s with models := (updateGo item_id payload s.models).2 })

/-- Recursion underlying `_delete_one`: walk `self.models` in order; at
the first record whose `id` equals `item_id`, delete it
(`del self.models[ind]`) and return the removed record. -/
def deleteGo (item_id : Nat) : List (Model α) → Option (Model α) × List (Model α)
  | [] => (none, [])
  | m :: rest =>
    if m.id = item_id then
      (some m, rest)
    else
      ((deleteGo item_id rest).1, m :: (deleteGo item_id rest).2)

/-- The route closure of `_delete_one`: first-match removal, `NOT_FOUND`
(`none`) when no record matches; `self._id` untouched. -/
def _delete_one (s : MemStore α) (item_id : Nat) : Option (Model α) × MemStore α :=
  ((deleteGo item_id s.models).1,
   { s with models := (deleteGo item_id s.models).2 })

/-- The route closure of `_delete_all`: `self.models = []`; the counter
`self._id` is not reset. -/
def _delete_all (s : MemStore α) : MemStore α :=
  { s with models := [] }

/-- The paginated route closure of `_get_all`: Python slicing
`self.models[offset:]` when `limit is None`, otherwise
`self.models[offset : offset + limit]`, paired with the total count
`len(self.models)`.  The route does not assign to the store, so the
state component of the result is the input state. -/
def _get_all (s : MemStore α) (offset : Nat) (limit : Option Nat) :
    (List (Model α) × Nat) × MemStore α :=
  match limit with
  | none => ((s.models.drop offset, s.models.length), s)
  | some l => (((s.models.drop offset).take l, s.models.length), s)

end MemoryCRUDRouter

/-- A state-changing operation on the in-memory store: one invocation of
the create, update, delete-one, or delete-all route closure. -/
inductive MemOp (α : Type u) where
  | create (payload : Model α)
  | update (item_id : Nat) (payload : α)
  | deleteOne (item_id : Nat)
  | deleteAll

/-- The effect of one operation on the store. -/
def applyOp {α : Type u} (s : MemStore α) : MemOp α → MemStore α
  | .create p => (MemoryCRUDRouter._create s p).2
  | .update i p => (MemoryCRUDRouter._update s i p).2
  | .deleteOne i => (MemoryCRUDRouter._delete_one s i).2
  | .deleteAll => MemoryCRUDRouter._delete_all s

/-- The store reached from `s` by a sequence of operations. -/
def runOps {α : Type u} (s : MemStore α) (ops : List (MemOp α)) : MemStore α :=
  ops.foldl applyOp s

/-- The identifiers handed out by `_get_next_id` (i.e. by the create
operations) along a run starting in `s`. -/
def allocIds {α : Type u} : MemStore α → List (MemOp α) → List Nat
  | _, [] => []
  | s, MemOp.create p :: rest => s._id :: allocIds (applyOp s (MemOp.create p)) rest
  | s, MemOp.update i p :: rest => allocIds (applyOp s (MemOp.update i p)) rest
  | s, MemOp.deleteOne i :: rest => allocIds (applyOp s (MemOp.deleteOne i)) rest
  | s, MemOp.deleteAll :: rest => allocIds (applyOp s MemOp.deleteAll) rest

/-- The store invariant of claim C1: stored identifiers are pairwise
distinct, and each is strictly below the counter `_id`. -/
def StoreInv {α : Type u} (s : MemStore α) : Prop :=
  (s.models.map Model.id).Nodup ∧ ∀ m ∈ s.models, m.id < s._id

/-- A concrete store used by the witnesses: three records, counter 4. -/
def demoStore : MemStore Nat := ⟨[⟨1, 10⟩, ⟨2, 20⟩, ⟨3, 30⟩], 4⟩

/-- The HTTP methods used by `CRUDGenerator.__init__`. -/
inductive Method where
  | GET
  | POST
  | PATCH
  | DELETE
  deriving Repr, DecidableEq

/-- One registered route: the `path`, `methods` entry, and `status_code`
passed to `_add_api_route`. -/
structure ApiRoute where
  path : String
  method : Method
  status_code : Nat
  deriving Repr, DecidableEq

/-- The six route flags of `CRUDGenerator.__init__` (each may also be a
dependency list in the source, which likewise counts as enabled; only
the boolean case is modelled). -/
structure RouteFlags where
  get_all_route : Bool
  get_one_route : Bool
  create_route : Bool
  update_route : Bool
  delete_one_route : Bool
  delete_all_route : Bool
  deriving Repr, DecidableEq

/-- The single-item path `f"/\x7b\x7b\x7bself.path_param_name\x7d\x7d\x7d/"`,
i.e. `"/"` followed by the parameter name in braces followed by `"/"`. -/
def itemPath (path_param_name : String) : String :=
  "/\x7b" ++ path_param_name ++ "\x7d/"

/-- The routes registered by `CRUDGenerator.__init__`, in source order:
get_all, create, delete_all, get_one, update, delete_one, each guarded
by its flag, with the `status_code` passed at the corresponding
`_add_api_route` call. -/
def crudRoutes (path_param_name : String) (f : RouteFlags) : List ApiRoute :=
  (if f.get_all_route then [⟨"/", Method.GET, 200⟩] else []) ++
  (if f.create_route then [⟨"/", Method.POST, 201⟩] else []) ++
  (if f.delete_all_route then [⟨"/", Method.DELETE, 204⟩] else []) ++
  (if f.get_one_route then [⟨itemPath path_param_name, Method.GET, 200⟩] else []) ++
  (if f.update_route then [⟨itemPath path_param_name, Method.PATCH, 200⟩] else []) ++
  (if f.delete_one_route then [⟨itemPath path_param_name, Method.DELETE, 200⟩] else [])

/-- An exception raised by an underlying persistence library, carrying
its message (`", ".join(e.args)`). -/
inductive BackendError where
  | integrityError (msg : String)
  | uniqueViolation (msg : String)
  | other (msg : String)
  deriving Repr, DecidableEq

/-- The observable outcome of a backend route body: a returned value, a
raised `HTTPException(status_code, detail)`, or an uncaught backend
exception propagating out of the route. -/
inductive RouteOutcome (β : Type u) where
  | ok (value : β)
  | http (status_code : Nat) (detail : String)
  | uncaught (e : BackendError)
  deriving Repr, DecidableEq

/-- `CRUDGenerator._raise`: whatever `status_code` argument it receives
(the Python signature defaults it to 422), the body always raises
`HTTPException(422, ", ".join(e.args))`. -/
def CRUDGenerator_raise (β : Type u) (msg : String) (_status_code : Nat) : RouteOutcome β :=
  RouteOutcome.http 422 msg

namespace SQLAlchemyCRUDRouter

/-- Exception translation of the `_create` route body: only
`IntegrityError` is caught, becoming `HTTPException(422, "Key already
exists")`; everything else propagates. -/
def createOutcome (β : Type u) (r : Except BackendError β) : RouteOutcome β :=
  match r with
  | .ok v => RouteOutcome.ok v
  | .error (.integrityError _) => RouteOutcome.http 422 "Key already exists"
  | .error e => RouteOutcome.uncaught e

/-- Exception translation of the `_update` route body: only
`IntegrityError` is caught, then `self._raise(e)` is called (with the
default status argument 422). -/
def updateOutcome (β : Type u) (r : Except BackendError β) : RouteOutcome β :=
  match r with
  | .ok v => RouteOutcome.ok v
  | .error (.integrityError msg) => CRUDGenerator_raise β msg 422
  | .error e => RouteOutcome.uncaught e

end SQLAlchemyCRUDRouter

namespace GinoCRUDRouter

/-- `_create`: `except (IntegrityError, UniqueViolationError)` →
`HTTPException(422, "Key already exists")`. -/
def createOutcome (β : Type u) (r : Except BackendError β) : RouteOutcome β :=
  match r with
  | .ok v => RouteOutcome.ok v
  | .error (.integrityError _) => RouteOutcome.http 422 "Key already exists"
  | .error (.uniqueViolation _) => RouteOutcome.http 422 "Key already exists"
  | .error e => RouteOutcome.uncaught e

/-- `_update`: `except (IntegrityError, UniqueViolationError) as e` →
`self._raise(e)`. -/
def updateOutcome (β : Type u) (r : Except BackendError β) : RouteOutcome β :=
  match r with
  | .ok v => RouteOutcome.ok v
  | .error (.integrityError msg) => CRUDGenerator_raise β msg 422
  | .error (.uniqueViolation msg) => CRUDGenerator_raise β msg 422
  | .error e => RouteOutcome.uncaught e

end GinoCRUDRouter

namespace DatabasesCRUDRouter

/-- `_create`: `except Exception` → `HTTPException(422, "Key already
exists")`; every exception of the library is caught. -/
def createOutcome (β : Type u) (r : Except BackendError β) : RouteOutcome β :=
  match r with
  | .ok v => RouteOutcome.ok v
  | .error _ => RouteOutcome.http 422 "Key already exists"

/-- `_update`: `except Exception as e: raise NOT_FOUND from e` — every
exception of the library, integrity violations included, is turned into
the 404 `HTTPException(404, "Item not found")`. -/
def updateOutcome (β : Type u) (r : Except BackendError β) : RouteOutcome β :=
  match r with
  | .ok v => RouteOutcome.ok v
  | .error _ => RouteOutcome.http 404 "Item not found"

end DatabasesCRUDRouter

namespace TortoiseCRUDRouter

/-- `_create` has no `try/except`: backend exceptions propagate. -/
def createOutcome (β : Type u) (r : Except BackendError β) : RouteOutcome β :=
  match r with
  | .ok v => RouteOutcome.ok v
  | .error e => RouteOutcome.uncaught e

/-- `_update` has no `try/except`: backend exceptions propagate. -/
def updateOutcome (β : Type u) (r : Except BackendError β) : RouteOutcome β :=
  match r with
  | .ok v => RouteOutcome.ok v
  | .error e => RouteOutcome.uncaught e

end TortoiseCRUDRouter

namespace MemoryCRUDRouter

variable {α : Type u}

theorem updateGo_none_iff (i : Nat) (p : α) (l : List (Model α)) :
    (updateGo i p l).1 = none ↔ ∀ m ∈ l, m.id ≠ i := by
  induction l with
  | nil => simp [updateGo]
  | cons m rest ih =>
    by_cases h : m.id = i
    · simp [updateGo, h]
    · simp [updateGo, h, ih]

theorem updateGo_some_id (i : Nat) (p : α) (l : List (Model α)) (r : Model α)
    (h : (updateGo i p l).1 = some r) : r.id = i := by
  induction l with
  | nil => simp [updateGo] at h
  | cons m rest ih =>
    by_cases hm : m.id = i
    · simp [updateGo, hm] at h
      simp [← h]
    · simp only [updateGo, if_neg hm] at h
      exact ih h

theorem updateGo_none_snd (i : Nat) (p : α) (l : List (Model α))
    (h : (updateGo i p l).1 = none) : (updateGo i p l).2 = l := by
  induction l with
  | nil => simp [updateGo]
  | cons m rest ih =>
    by_cases hm : m.id = i
    · simp [updateGo, hm] at h
    · simp only [updateGo, if_neg hm] at h ⊢
      simp [ih h]

theorem updateGo_found (i : Nat) (p : α) (l : List (Model α))
    (h : ∃ m ∈ l, m.id = i) :
    ∃ pre m post, l = pre ++ m :: post ∧ m.id = i ∧ (∀ m' ∈ pre, m'.id ≠ i) ∧
      updateGo i p l = (some ⟨i, p⟩, pre ++ ⟨i, p⟩ :: post) := by
  induction l with
  | nil => simp at h
  | cons m rest ih =>
    by_cases hm : m.id = i
    · exact ⟨[], m, rest, rfl, hm, by simp, by simp [updateGo, hm]⟩
    · have hrest : ∃ m' ∈ rest, m'.id = i := by
        rcases h with ⟨m', hmem, hid⟩
        rcases List.mem_cons.mp hmem with hh | hh
        · exact absurd (hh ▸ hid) hm
        · exact ⟨m', hh, hid⟩
      rcases ih hrest with ⟨pre, mm, post, heq, hid, hpre, hgo⟩
      refine ⟨m :: pre, mm, post, by simp [heq], hid, ?_, ?_⟩
      · intro m' hm'
        rcases List.mem_cons.mp hm' with hh | hh
        · exact hh ▸ hm
        · exact hpre m' hh
      · simp only [updateGo, if_neg hm, hgo, List.cons_append]

theorem deleteGo_none_iff (i : Nat) (l : List (Model α)) :
    (deleteGo i l).1 = none ↔ ∀ m ∈ l, m.id ≠ i := by
  induction l with
  | nil => simp [deleteGo]
  | cons m rest ih =>
    by_cases h : m.id = i
    · simp [deleteGo, h]
    · simp [deleteGo, h, ih]

theorem deleteGo_some_id (i : Nat) (l : List (Model α)) (r : Model α)
    (h : (deleteGo i l).1 = some r) : r.id = i := by
  induction l with
  | nil => simp [deleteGo] at h
  | cons m rest ih =>
    by_cases hm : m.id = i
    · simp [deleteGo, hm] at h
      simp [← h, hm]
    · simp only [deleteGo, if_neg hm] at h
      exact ih h

theorem deleteGo_none_snd (i : Nat) (l : List (Model α))
    (h : (deleteGo i l).1 = none) : (deleteGo i l).2 = l := by
  induction l with
  | nil => simp [deleteGo]
  | cons m rest ih =>
    by_cases hm : m.id = i
    · simp [deleteGo, hm] at h
    · simp only [deleteGo, if_neg hm] at h ⊢
      simp [ih h]

theorem deleteGo_found (i : Nat) (l : List (Model α))
    (h : ∃ m ∈ l, m.id = i) :
    ∃ pre m post, l = pre ++ m :: post ∧ m.id = i ∧ (∀ m' ∈ pre, m'.id ≠ i) ∧
      deleteGo i l = (some m, pre ++ post) := by
  induction l with
  | nil => simp at h
  | cons m rest ih =>
    by_cases hm : m.id = i
    · exact ⟨[], m, rest, rfl, hm, by simp, by simp [deleteGo, hm]⟩
    · have hrest : ∃ m' ∈ rest, m'.id = i := by
        rcases h with ⟨m', hmem, hid⟩
        rcases List.mem_cons.mp hmem with hh | hh
        · exact absurd (hh ▸ hid) hm
        · exact ⟨m', hh, hid⟩
      rcases ih hrest with ⟨pre, mm, post, heq, hid, hpre, hgo⟩
      refine ⟨m :: pre, mm, post, by simp [heq], hid, ?_, ?_⟩
      · intro m' hm'
        rcases List.mem_cons.mp hm' with hh | hh
        · exact hh ▸ hm
        · exact hpre m' hh
      · simp only [deleteGo, if_neg hm, hgo, List.cons_append]

end MemoryCRUDRouter

/-- C2: the create route appends exactly one record, whose identifier is
the current counter value regardless of the payload's own `id`; the
counter is incremented; the appended record is returned. -/
theorem C2_create_appends (α : Type u) (s : MemStore α) (payload : Model α) :
    MemoryCRUDRouter._create s payload =
      (⟨s._id, payload.data⟩,
       ⟨s.models ++ [⟨s._id, payload.data⟩], s._id + 1⟩) := by
  rfl

/-- C3: the get-one, update, and delete-one route closures raise the 404
`NOT_FOUND` exception (result `none`) iff no stored record's identifier
equals `item_id`; otherwise each returns a record whose identifier
equals `item_id`. -/
theorem C3_notfound_iff (α : Type u) (s : MemStore α) (i : Nat) :
    ((MemoryCRUDRouter._get_one s i).1 = none ↔ ∀ m ∈ s.models, m.id ≠ i)
  ∧ (∀ p : α, (MemoryCRUDRouter._update s i p).1 = none ↔ ∀ m ∈ s.models, m.id ≠ i)
  ∧ ((MemoryCRUDRouter._delete_one s i).1 = none ↔ ∀ m ∈ s.models, m.id ≠ i)
  ∧ (∀ r, (MemoryCRUDRouter._get_one s i).1 = some r → r.id = i)
  ∧ (∀ (p : α) r, (MemoryCRUDRouter._update s i p).1 = some r → r.id = i)
  ∧ (∀ r, (MemoryCRUDRouter._delete_one s i).1 = some r → r.id = i) := by
  refine ⟨?_, ?_, ?_, ?_, ?_, ?_⟩
  · simp [MemoryCRUDRouter._get_one, List.find?_eq_none]
  · intro p
    exact MemoryCRUDRouter.updateGo_none_iff i p s.models
  · exact MemoryCRUDRouter.deleteGo_none_iff i s.models
  · intro r hr
    simp only [MemoryCRUDRouter._get_one] at hr
    simpa using List.find?_some hr
  · intro p r hr
    exact MemoryCRUDRouter.updateGo_some_id i p s.models r hr
  · intro r hr
    exact MemoryCRUDRouter.deleteGo_some_id i s.models r hr

/-- Witness for C3, at the concrete store `demoStore`. -/
theorem C3_witness :
    ((MemoryCRUDRouter._get_one demoStore 5).1 = none
      ∧ (MemoryCRUDRouter._update demoStore 5 (0 : Nat)).1 = none
      ∧ (MemoryCRUDRouter._delete_one demoStore 5).1 = none)
  ∧ ((⟨2, 20⟩ : Model Nat).id = 2
      ∧ (⟨2, 99⟩ : Model Nat).id = 2
      ∧ (⟨1, 10⟩ : Model Nat).id = 1) := by
  have h5 := C3_notfound_iff Nat demoStore 5
  have h2 := C3_notfound_iff Nat demoStore 2
  have h1 := C3_notfound_iff Nat demoStore 1
  exact ⟨⟨h5.1.mpr (by decide), (h5.2.1 0).mpr (by decide), h5.2.2.1.mpr (by decide)⟩,
         h2.2.2.2.1 ⟨2, 20⟩ rfl, h2.2.2.2.2.1 99 ⟨2, 99⟩ rfl,
         h1.2.2.2.2.2 ⟨1, 10⟩ rfl⟩

/-- C4: on a store containing a record with identifier `item_id`, the
update route replaces the first such entry in place by the record built
from the payload with identifier `item_id`, returns that entry, and
leaves every other entry and the counter unchanged. -/
theorem C4_update_replaces (α : Type u) (s : MemStore α) (i : Nat) (p : α)
    (h : ∃ m ∈ s.models, m.id = i) :
    ∃ pre m post,
      s.models = pre ++ m :: post ∧ m.id = i ∧ (∀ m' ∈ pre, m'.id ≠ i) ∧
      MemoryCRUDRouter._update s i p =
        (some ⟨i, p⟩, ⟨pre ++ ⟨i, p⟩ :: post, s._id⟩) := by
  rcases MemoryCRUDRouter.updateGo_found i p s.models h with ⟨pre, m, post, heq, hid, hpre, hgo⟩
  refine ⟨pre, m, post, heq, hid, hpre, ?_⟩
  simp [MemoryCRUDRouter._update, hgo]

/-- Witness for C4, at the concrete store `demoStore`. -/
theorem C4_witness :
    ∃ pre m post,
      demoStore.models = pre ++ m :: post ∧ m.id = 2 ∧ (∀ m' ∈ pre, m'.id ≠ 2) ∧
      MemoryCRUDRouter._update demoStore 2 99 =
        (some ⟨2, 99⟩, ⟨pre ++ ⟨2, 99⟩ :: post, demoStore._id⟩) :=
  C4_update_replaces Nat demoStore 2 99 ⟨⟨2, 20⟩, by decide, rfl⟩

/-- C5: the paginated list route returns the contiguous slice of the
model list from index `offset`, of length at most `limit` (the whole
suffix when `limit` is absent), together with the full length as the
total, and leaves the store unchanged. -/
theorem C5_get_all_slice (α : Type u) (s : MemStore α) (offset : Nat) (limit : Option Nat) :
    ((MemoryCRUDRouter._get_all s offset limit).1.2 = s.models.length)
  ∧ ((MemoryCRUDRouter._get_all s offset limit).2 = s)
  ∧ ((MemoryCRUDRouter._get_all s offset limit).1.1.length =
      match limit with
      | none => s.models.length - offset
      | some l => min l (s.models.length - offset))
  ∧ (∀ k, k < (MemoryCRUDRouter._get_all s offset limit).1.1.length →
      (MemoryCRUDRouter._get_all s offset limit).1.1[k]? = s.models[offset + k]?) := by
  cases limit with
  | none =>
    refine ⟨rfl, rfl, by simp [MemoryCRUDRouter._get_all], ?_⟩
    intro k hk
    simp only [MemoryCRUDRouter._get_all]
    rw [List.getElem?_drop]
  | some l =>
    refine ⟨rfl, rfl, by simp [MemoryCRUDRouter._get_all], ?_⟩
    intro k hk
    simp only [MemoryCRUDRouter._get_all, List.length_take, List.length_drop,
      lt_min_iff] at hk
    simp only [MemoryCRUDRouter._get_all]
    rw [List.getElem?_take_of_lt hk.1, List.getElem?_drop]

/-- Witness for C5, at the concrete store `demoStore`. -/
theorem C5_witness :
    (MemoryCRUDRouter._get_all demoStore 1 (some 1)).1.1[0]? = demoStore.models[1 + 0]? :=
  (C5_get_all_slice Nat demoStore 1 (some 1)).2.2.2 0 (by decide)

/-- C6: on a store containing a record with identifier `item_id`, the
delete-one route removes exactly the first entry whose identifier equals
`item_id`, returns the removed record, and keeps the remaining entries in
their relative order (and the counter unchanged). -/
theorem C6_delete_first (α : Type u) (s : MemStore α) (i : Nat)
    (h : ∃ m ∈ s.models, m.id = i) :
    ∃ pre m post,
      s.models = pre ++ m :: post ∧ m.id = i ∧ (∀ m' ∈ pre, m'.id ≠ i) ∧
      MemoryCRUDRouter._delete_one s i = (some m, ⟨pre ++ post, s._id⟩) := by
  rcases MemoryCRUDRouter.deleteGo_found i s.models h with ⟨pre, m, post, heq, hid, hpre, hgo⟩
  refine ⟨pre, m, post, heq, hid, hpre, ?_⟩
  simp [MemoryCRUDRouter._delete_one, hgo]

/-- Witness for C6, at the concrete store `demoStore`. -/
theorem C6_witness :
    ∃ pre m post,
      demoStore.models = pre ++ m :: post ∧ m.id = 2 ∧ (∀ m' ∈ pre, m'.id ≠ 2) ∧
      MemoryCRUDRouter._delete_one demoStore 2 = (some m, ⟨pre ++ post, demoStore._id⟩) :=
  C6_delete_first Nat demoStore 2 ⟨⟨2, 20⟩, by decide, rfl⟩

/-- C9: whenever get-one, update, or delete-one raises the 404 exception
(result `none`), the store (models and counter) is unchanged; get-one
never changes the store at all. -/
theorem C9_atomic_on_404 (α : Type u) (s : MemStore α) (i : Nat) (p : α) :
    ((MemoryCRUDRouter._get_one s i).2 = s)
  ∧ ((MemoryCRUDRouter._update s i p).1 = none → (MemoryCRUDRouter._update s i p).2 = s)
  ∧ ((MemoryCRUDRouter._delete_one s i).1 = none → (MemoryCRUDRouter._delete_one s i).2 = s) := by
  refine ⟨rfl, ?_, ?_⟩
  · intro h
    have h2 := MemoryCRUDRouter.updateGo_none_snd i p s.models h
    simp [MemoryCRUDRouter._update, h2]
  · intro h
    have h2 := MemoryCRUDRouter.deleteGo_none_snd i s.models h
    simp [MemoryCRUDRouter._delete_one, h2]

/-- Witness for C9, at the concrete store `demoStore` with an absent id. -/
theorem C9_witness :
    (MemoryCRUDRouter._update demoStore 5 (0 : Nat)).2 = demoStore
  ∧ (MemoryCRUDRouter._delete_one demoStore 5).2 = demoStore := by
  have h := C9_atomic_on_404 Nat demoStore 5 0
  exact ⟨h.2.1 rfl, h.2.2 rfl⟩

theorem updateGo_map_id {α : Type u} (i : Nat) (p : α) (l : List (Model α)) :
    ((MemoryCRUDRouter.updateGo i p l).2).map Model.id = l.map Model.id := by
  induction l with
  | nil => simp [MemoryCRUDRouter.updateGo]
  | cons m rest ih =>
    by_cases hm : m.id = i
    · simp [MemoryCRUDRouter.updateGo, hm]
    · simp [MemoryCRUDRouter.updateGo, hm, ih]

theorem deleteGo_sublist {α : Type u} (i : Nat) (l : List (Model α)) :
    (MemoryCRUDRouter.deleteGo i l).2.Sublist l := by
  induction l with
  | nil => simp [MemoryCRUDRouter.deleteGo]
  | cons m rest ih =>
    by_cases hm : m.id = i
    · simp only [MemoryCRUDRouter.deleteGo, if_pos hm]
      exact (List.sublist_cons_self m rest)
    · simp only [MemoryCRUDRouter.deleteGo, if_neg hm]
      exact ih.cons₂ m

theorem applyOp_preserves_inv {α : Type u} (s : MemStore α) (op : MemOp α)
    (h : StoreInv s) : StoreInv (applyOp s op) := by
  obtain ⟨hnd, hlt⟩ := h
  cases op with
  | create p =>
    constructor
    · simp only [applyOp, MemoryCRUDRouter._create, MemoryCRUDRouter._get_next_id,
        List.map_append, List.map_cons, List.map_nil]
      refine hnd.append (List.nodup_singleton _) ?_
      intro a ha hb
      rcases List.mem_map.mp ha with ⟨m, hm, hma⟩
      rcases List.mem_singleton.mp hb with rfl
      exact absurd (hma ▸ hlt m hm) (lt_irrefl _)
    · intro m hm
      simp only [applyOp, MemoryCRUDRouter._create, MemoryCRUDRouter._get_next_id,
        List.mem_append, List.mem_singleton] at hm ⊢
      rcases hm with hm | rfl
      · exact Nat.lt_succ_of_lt (hlt m hm)
      · exact Nat.lt_succ_self _
  | update i p =>
    constructor
    · simpa only [applyOp, MemoryCRUDRouter._update, updateGo_map_id] using hnd
    · intro m hm
      have hmem : m.id ∈ (MemoryCRUDRouter.updateGo i p s.models).2.map Model.id :=
        List.mem_map_of_mem Model.id hm
      rw [updateGo_map_id] at hmem
      rcases List.mem_map.mp hmem with ⟨m', hm', hid⟩
      simpa only [applyOp, MemoryCRUDRouter._update, ← hid] using hlt m' hm'
  | deleteOne i =>
    constructor
    · exact hnd.sublist ((deleteGo_sublist i s.models).map Model.id)
    · intro m hm
      exact hlt m ((deleteGo_sublist i s.models).subset hm)
  | deleteAll =>
    exact ⟨by simp [applyOp, MemoryCRUDRouter._delete_all], by
      simp [applyOp, MemoryCRUDRouter._delete_all]⟩

/-- C1: every store reachable from the initial empty store by create,
update, delete-one, and delete-all operations has pairwise-distinct
identifiers, all strictly below the counter `_id`. -/
theorem C1_reachable_invariant (α : Type u) (ops : List (MemOp α)) :
    StoreInv (runOps (MemoryCRUDRouter.memInit) ops) := by
  suffices h : ∀ (ops : List (MemOp α)) (s : MemStore α), StoreInv s → StoreInv (runOps s ops) by
    exact h ops MemoryCRUDRouter.memInit
      ⟨by simp [MemoryCRUDRouter.memInit], by simp [MemoryCRUDRouter.memInit]⟩
  intro ops
  induction ops with
  | nil => exact fun s hs => hs
  | cons op rest ih =>
    intro s hs
    exact ih (applyOp s op) (applyOp_preserves_inv s op hs)

theorem applyOp_id_le {α : Type u} (s : MemStore α) (op : MemOp α) :
    s._id ≤ (applyOp s op)._id := by
  cases op with
  | create p =>
    simp [applyOp, MemoryCRUDRouter._create, MemoryCRUDRouter._get_next_id]
  | update i p => exact le_refl _
  | deleteOne i => exact le_refl _
  | deleteAll => exact le_refl _

theorem allocIds_mono_sorted {α : Type u} (ops : List (MemOp α)) (s : MemStore α) :
    (∀ x ∈ allocIds s ops, s._id ≤ x) ∧ (allocIds s ops).Pairwise (· < ·) := by
  induction ops generalizing s with
  | nil => exact ⟨by simp [allocIds], by simp [allocIds]⟩
  | cons op rest ih =>
    cases op with
    | create p =>
      have hid : (applyOp s (MemOp.create p))._id = s._id + 1 := rfl
      obtain ⟨hlb, hpw⟩ := ih (applyOp s (MemOp.create p))
      rw [hid] at hlb
      constructor
      · intro x hx
        simp only [allocIds, List.mem_cons] at hx
        rcases hx with rfl | hx
        · exact le_refl _
        · exact Nat.le_of_succ_le (hlb x hx)
      · exact List.Pairwise.cons (fun x hx => Nat.lt_of_succ_le (hlb x hx)) hpw
    | update i p =>
      obtain ⟨hlb, hpw⟩ := ih (applyOp s (MemOp.update i p))
      exact ⟨fun x hx => hlb x hx, hpw⟩
    | deleteOne i =>
      obtain ⟨hlb, hpw⟩ := ih (applyOp s (MemOp.deleteOne i))
      exact ⟨fun x hx => hlb x hx, hpw⟩
    | deleteAll =>
      obtain ⟨hlb, hpw⟩ := ih (applyOp s MemOp.deleteAll)
      exact ⟨fun x hx => hlb x hx, hpw⟩

/-- C10: delete-all empties the model list but keeps the counter, and
over any lifetime of the router no identifier is allocated twice by
create. -/
theorem C10_no_id_reuse (α : Type u) :
    (∀ s : MemStore α, MemoryCRUDRouter._delete_all s = ⟨[], s._id⟩)
  ∧ (∀ ops : List (MemOp α), (allocIds (MemoryCRUDRouter.memInit) ops).Nodup) := by
  constructor
  · intro s
    rfl
  · intro ops
    exact ((allocIds_mono_sorted ops MemoryCRUDRouter.memInit).2).imp Nat.ne_of_lt

/-- C7: with all six route flags enabled, exactly six routes are
registered: GET, POST, DELETE on the collection path `"/"` with status
codes 200, 201, 204, and GET, PATCH, DELETE on the single-item path
with status code 200 each. -/
theorem C7_six_routes (path_param_name : String) :
    crudRoutes path_param_name ⟨true, true, true, true, true, true⟩ =
      [⟨"/", Method.GET, 200⟩, ⟨"/", Method.POST, 201⟩, ⟨"/", Method.DELETE, 204⟩,
       ⟨itemPath path_param_name, Method.GET, 200⟩,
       ⟨itemPath path_param_name, Method.PATCH, 200⟩,
       ⟨itemPath path_param_name, Method.DELETE, 200⟩]
  ∧ (crudRoutes path_param_name ⟨true, true, true, true, true, true⟩).length = 6 :=
  ⟨rfl, rfl⟩

/-- Counterexample to C8 as stated: in the `databases` adapter, an
integrity-violation exception raised by the library during the update
operation is translated to status 404, not 422. -/
theorem C8_counterexample :
    DatabasesCRUDRouter.updateOutcome Unit
        (Except.error (BackendError.integrityError "duplicate key")) =
      RouteOutcome.http 404 "Item not found"
  ∧ (404 : Nat) ≠ 422 :=
  ⟨rfl, by decide⟩

/-- C8 amended: the SQLAlchemy and Gino adapters translate integrity
violations (and, for Gino, unique violations) during create and update
to status 422; the databases adapter translates every create-time
exception to 422 but every update-time exception — integrity violations
included — to 404; the Tortoise adapter catches nothing, so backend
exceptions propagate untranslated. -/
theorem C8_conflict_mapping (β : Type u) (msg : String) :
    (SQLAlchemyCRUDRouter.createOutcome β (Except.error (BackendError.integrityError msg)) =
      RouteOutcome.http 422 "Key already exists")
  ∧ (SQLAlchemyCRUDRouter.updateOutcome β (Except.error (BackendError.integrityError msg)) =
      RouteOutcome.http 422 msg)
  ∧ (GinoCRUDRouter.createOutcome β (Except.error (BackendError.integrityError msg)) =
      RouteOutcome.http 422 "Key already exists")
  ∧ (GinoCRUDRouter.createOutcome β (Except.error (BackendError.uniqueViolation msg)) =
      RouteOutcome.http 422 "Key already exists")
  ∧ (GinoCRUDRouter.updateOutcome β (Except.error (BackendError.integrityError msg)) =
      RouteOutcome.http 422 msg)
  ∧ (GinoCRUDRouter.updateOutcome β (Except.error (BackendError.uniqueViolation msg)) =
      RouteOutcome.http 422 msg)
  ∧ (∀ e, DatabasesCRUDRouter.createOutcome β (Except.error e) =
      RouteOutcome.http 422 "Key already exists")
  ∧ (∀ e, DatabasesCRUDRouter.updateOutcome β (Except.error e) =
      RouteOutcome.http 404 "Item not found")
  ∧ (∀ e, TortoiseCRUDRouter.createOutcome β (Except.error e) =
      RouteOutcome.uncaught e)
  ∧ (∀ e, TortoiseCRUDRouter.updateOutcome β (Except.error e) =
      RouteOutcome.uncaught e) :=
  ⟨rfl, rfl, rfl, rfl, rfl, rfl, fun _ => rfl, fun _ => rfl, fun _ => rfl, fun _ => rfl⟩
